import Mathlib

/-!
A shallow embedding of the fire-risk scoring pipeline of `projeto_REME`
(`calculo.py`, `app.py`, `variaveis_talhao.py`) and proofs about it.

Conventions of the embedding:
* pandas/numpy floats are modelled as `ℚ`; a null/NaN cell is `none : Option ℚ`.
  NaN propagation of IEEE arithmetic is modelled by `Option`-propagation
  (`none` absorbs every arithmetic operation), and `NaN == NaN` being false is
  modelled where it matters (the `vmax == vmin` test of `normalizar_escala`).
* A dataframe is a list of rows; plot identifiers keep the type they had in
  the uploaded workbook, so the pipeline is polymorphic in the id type `α`
  (pandas likewise carries whatever dtype the `Pontos` column had).
* The sheets modelled carry the canonical `Pontos` id column and no LAT/LON
  columns, i.e. the code path of `carregar_base_reme` in which the
  `Name`-rename and the coordinate capture/strip branches are no-ops
  (`coords is None`); none of the verified claims concern coordinates.
* `variaveis_talhao.get(str(t), {}).get(var, False)` is total (both lookups
  default), so site attributes are modelled as a total function
  `String → String → Bool`; `str(t)` is modelled by an explicit `pyStr`.
-/

namespace Reme

/-- Python `str.lower` restricted to the character repertoire that appears in
the workbook sheet names and month headers of this project (ASCII plus the
accented letters used by the four sheet-name targets). -/
def pyCharLower (c : Char) : Char :=
  if c = 'É' then 'é' else if c = 'Á' then 'á' else if c = 'Ã' then 'ã'
  else if c = 'Ç' then 'ç' else if c = 'Í' then 'í' else if c = 'Ó' then 'ó'
  else if c = 'Ú' then 'ú' else if c = 'Ê' then 'ê' else if c = 'Ô' then 'ô'
  else c.toLower

def pyLower (s : String) : String :=
  String.mk (s.toList.map pyCharLower)

/-- Does `pat` occur at the head of `l`? (used for Python substring search). -/
def startsWith : List Char → List Char → Bool
  | [], _ => true
  | _ :: _, [] => false
  | a :: as, b :: bs => a == b && startsWith as bs

/-- Python `pat in s` on strings: `pat` occurs contiguously somewhere in `l`. -/
def containsSeq (pat : List Char) : List Char → Bool
  | [] => pat.isEmpty
  | c :: cs => startsWith pat (c :: cs) || containsSeq pat cs

/-- The sheet-name match of `ler_aba`: `nome.lower() in aba.lower()`. -/
def abaMatch (nome aba : String) : Bool :=
  containsSeq (pyLower nome).toList (pyLower aba).toList

/-- Function `ler_aba` of `calculo.carregar_base_reme`: walk the sheets of the
workbook in
order and return the contents of the first one whose name contains `nome`
case-insensitively; `none` when no sheet matches. -/
def ler_aba {σ : Type} (abas : List (String × σ)) (nome : String) : Option σ :=
  match abas with
  | [] => none
  | (a, s) :: rest => if abaMatch nome a then some s else ler_aba rest nome

/-- Function `normalizar_escala` of `calculo.py` on one column.  `v.min()`/`v.max()`
skip nulls (pandas `skipna`); when the column has no non-null entry both are
NaN, `vmax == vmin` is false (NaN compares unequal), and the division produces
NaN everywhere.  In the `vmax == vmin` branch `pd.Series(0.0, index=v.index)`
assigns `0.0` to every row, the null ones included.  `inverter` applies
`1 - out` afterwards (so it also flips the degenerate constant `0`). -/
def normalizar_escala (v : List (Option ℚ)) (inverter : Bool) : List (Option ℚ) :=
  let vals := v.filterMap id
  let out :=
    match vals with
    | [] => v.map (fun _ => (none : Option ℚ))
    | x :: xs =>
      let vmin := xs.foldl min x
      let vmax := xs.foldl max x
      if vmax = vmin then v.map (fun _ => some (0 : ℚ))
      else v.map (Option.map (fun q => (q - vmin) / (vmax - vmin)))
  if inverter then out.map (Option.map (fun q => 1 - q)) else out

/-- One character of the lowercase regex class `[a-zç]`. -/
def isLetterMes (c : Char) : Bool :=
  ('a' ≤ c && c ≤ 'z') || c = 'ç'

def isDigitChar (c : Char) : Bool :=
  '0' ≤ c && c ≤ '9'

/-- Python `s.replace(pat, "")` with a non-empty `pat = p0 :: ps`: remove the
non-overlapping occurrences of the pattern, scanning left to right. -/
def removeAll (p0 : Char) (ps : List Char) : List Char → List Char
  | [] => []
  | c :: cs =>
    if startsWith (p0 :: ps) (c :: cs) then removeAll p0 ps (cs.drop ps.length)
    else c :: removeAll p0 ps cs
termination_by l => l.length
decreasing_by
  · have h : (cs.drop ps.length).length ≤ cs.length := by
      simp [List.length_drop]
    simp only [List.length_cons]
    omega
  · simp

/-- The leftmost match of the regex `([a-zç]+)_(\d{4})`: the first maximal run
of `[a-zç]` letters that is immediately followed by an underscore and four
digits.  (A match starting inside a letter run would have to end the group at
a letter, so only maximal runs can match; on failure the scan resumes after
the run, exactly as regex backtracking does here.) -/
def extractMesAno : List Char → Option (List Char × List Char)
  | [] => none
  | c :: cs =>
    if isLetterMes c then
      let run := c :: cs.takeWhile isLetterMes
      let rest := cs.dropWhile isLetterMes
      match rest with
      | '_' :: d1 :: d2 :: d3 :: d4 :: _ =>
        if isDigitChar d1 && isDigitChar d2 && isDigitChar d3 && isDigitChar d4 then
          some (run, [d1, d2, d3, d4])
        else extractMesAno rest
      | _ => extractMesAno rest
    else extractMesAno cs
termination_by l => l.length
decreasing_by
  all_goals first
    | (simp only [List.length_cons]
       exact Nat.lt_succ_of_le (List.dropWhile_sublist (l := cs) _).length_le)
    | simp

/-- The `meses_map` lookup of `processar_df`: `meses_map.get(x, x)`.  The
twelve identity entries (`"jan": "jan"`, …) coincide with the default, so only
the four non-identity entries are spelled out. -/
def mesesMap (s : String) : String :=
  if s = "abril" then "abr" else if s = "março" then "mar"
  else if s = "março." then "mar" else if s = "dec" then "dez" else s

/-- The `Mes_Ano` normalization of `processar_df` applied to one wide-column
header: lowercase, strip the variable-name prefixes, take group 1 of
`([a-zç]+)_(\d{4})` from the stripped string and group 2 of the same pattern
from the ORIGINAL (un-lowered) header, join them with `_`; `NaN` (either
extract failing) becomes `""` via `fillna("")`; finally the month half is
corrected through `meses_map`.  The corrected token always contains `_`, and
`""` contains none, so the `if "_" in x` guard reduces to this case split. -/
def mesAnoToken (h : String) : String :=
  let lowered := h.toList.map pyCharLower
  let stripped :=
    removeAll 't' "emp_".toList
      (removeAll 'p' "recipitacao_".toList
        (removeAll 'u' "mid_".toList
          (removeAll 't' "_max_".toList
            (removeAll 't' "min_".toList lowered))))
  match extractMesAno stripped, extractMesAno h.toList with
  | some (g0, _), some (_, g1) => mesesMap (String.mk g0) ++ "_" ++ String.mk g1
  | _, _ => ""

/-- One workbook sheet after reading, in wide form: the month-year column
headers in sheet order, and one row per plot with its id and one value per
header. -/
structure Aba (α : Type) where
  headers : List String
  rows : List (α × List (Option ℚ))

/-- Melt, `df.melt(id_vars="Pontos", ...)`: pandas stacks the value columns one
after the other (column-major), each contributing every row in row order. -/
def melt {α : Type} (df : Aba α) : List (α × String × Option ℚ) :=
  df.headers.enum.flatMap (fun p =>
    df.rows.map (fun r => (r.1, p.2, r.2.getD p.1 none)))

/-- Function `processar_df`: melt one sheet and normalize its `Mes_Ano` tokens.  The
result is keyed for the merge: `((Pontos, Mes_Ano), value)`. -/
def processar_df {α : Type} (df : Aba α) : List ((α × String) × Option ℚ) :=
  (melt df).map (fun r => ((r.1, mesAnoToken r.2.1), r.2.2))

/-- Outer merge, `l.merge(r, on=key, how="outer")`: every left row joined with each
matching right row (a missing match contributes the null right record), then
the right rows without a left match.  `nullβ`/`nullγ` are the all-NaN records
pandas fills in for the frame that lacks the key.  (Pandas may emit the rows
in a different order; no verified claim depends on the row order of this
intermediate table.) -/
def mergeRow {κ β γ : Type} [DecidableEq κ]
    (r : List (κ × γ)) (nullγ : γ) (p : κ × β) : List (κ × β × γ) :=
  let ms := r.filter (fun q => decide (q.1 = p.1))
  if ms.isEmpty then [(p.1, p.2, nullγ)]
  else ms.map (fun q => (p.1, p.2, q.2))

def outerMergeOn {κ β γ : Type} [DecidableEq κ]
    (l : List (κ × β)) (r : List (κ × γ)) (nullβ : β) (nullγ : γ) :
    List (κ × β × γ) :=
  (l.flatMap (mergeRow r nullγ)) ++
  ((r.filter (fun q => decide (∀ p ∈ l, ¬ p.1 = q.1))).map
    (fun q => (q.1, nullβ, q.2)))

/-- The three chained outer merges of `carregar_base_reme` (lines 86–91), in
source order: precipitation ⋈ max-temperature ⋈ mean-temperature ⋈ humidity,
all on `(Pontos, Mes_Ano)`. -/
def mergeClimatico {κ : Type} [DecidableEq κ]
    (prec tmax tmed umid : List (κ × Option ℚ)) :
    List (κ × ((Option ℚ × Option ℚ) × Option ℚ) × Option ℚ) :=
  outerMergeOn
    (outerMergeOn
      (outerMergeOn prec tmax none none)
      tmed (none, none) none)
    umid ((none, none), none) none

/-- The consolidated long-form table (`ClimateRecord`): one row per
`(Pontos, Mes_Ano)` after the final column renaming of
`carregar_base_reme`. -/
structure ClimRow (α : Type) where
  talhao : α
  mes : String
  precipitacao : Option ℚ
  temp_maxima : Option ℚ
  temp_media : Option ℚ
  umidade : Option ℚ
deriving DecidableEq

/-- The renaming step of `carregar_base_reme` applied to one merged row. -/
def toClimRow {α : Type} (r : (α × String) × ((Option ℚ × Option ℚ) × Option ℚ) × Option ℚ) :
    ClimRow α :=
  { talhao := r.1.1
    mes := r.1.2
    precipitacao := r.2.1.1.1
    temp_maxima := r.2.1.1.2
    temp_media := r.2.1.2
    umidade := r.2.2 }

/-- The error message raised when a required sheet is missing (the
user-facing `MissingSheetError` of the specification; in the source it is a
`ValueError` with this message). -/
def missingSheetMsg : String :=
  "Não foram encontradas todas as abas esperadas (Precipitacao_total, Temp_max, Temp_média_final, Umidade_Relativa)."

/-- Function `carregar_base_reme`: read the four sheets by case-insensitive substring
match, fail when any is missing, otherwise melt, token-normalize and
outer-merge them into the consolidated table. -/
def carregar_base_reme {α : Type} [DecidableEq α]
    (abas : List (String × Aba α)) : Except String (List (ClimRow α)) :=
  match ler_aba abas "Precipitacao_total", ler_aba abas "Temp_max",
        ler_aba abas "Temp_média_final", ler_aba abas "Umidade_Relativa" with
  | some dfP, some dfTx, some dfTm, some dfU =>
    .ok ((mergeClimatico (processar_df dfP) (processar_df dfTx)
            (processar_df dfTm) (processar_df dfU)).map toClimRow)
  | _, _, _, _ => .error missingSheetMsg

/-- The first run of `[a-zç]` letters anywhere in the string (the leftmost
match of the unanchored regex `([a-zç]+)` used by
`str.extract(r"([a-zç]+)")`); `none` when the string has no such letter. -/
def extractRunMes (l : List Char) : Option (List Char) :=
  match (l.dropWhile (fun c => !isLetterMes c)).takeWhile isLetterMes with
  | [] => none
  | c :: cs => some (c :: cs)

/-- The full-month-name correction of `calcular_scores_mensais`
(`pd.Series.replace`, which rewrites whole cell values only). -/
def mesesCompletos (s : String) : String :=
  if s = "janeiro" then "jan" else if s = "fevereiro" then "fev"
  else if s = "março" then "mar" else if s = "abril" then "abr"
  else if s = "maio" then "mai" else if s = "junho" then "jun"
  else if s = "julho" then "jul" else if s = "agosto" then "ago"
  else if s = "setembro" then "set" else if s = "outubro" then "out"
  else if s = "novembro" then "nov" else if s = "dezembro" then "dez" else s

/-- The `mes_simplificado` grouping key of one row: extract the first letter
run of `mes`, lowercase it, and correct full month names; `none` models the
NaN key that `str.extract` yields on rows without a letter run (such rows are
dropped by the groupby, pandas `dropna=True`). -/
def mesSimplificado (s : String) : Option String :=
  (extractRunMes s.toList).map (fun r => mesesCompletos (String.mk (r.map pyCharLower)))

/-- The output unit of the historical aggregation: one row per
`(talhao, mes_simplificado)` group with the per-criterion means. -/
structure AgRow (α : Type) where
  talhao : α
  mes : String
  umidade : Option ℚ
  precipitacao : Option ℚ
  temp_maxima : Option ℚ
  temp_media : Option ℚ
deriving DecidableEq

/-- The rows of one `(talhao, mes_simplificado)` group. -/
def grupo {α : Type} [DecidableEq α] (df : List (ClimRow α)) (t : α) (m : String) :
    List (ClimRow α) :=
  df.filter (fun r => decide (r.talhao = t ∧ mesSimplificado r.mes = some m))

/-- The distinct group keys, i.e. the index of
`df.groupby(["talhao", "mes_simplificado"])` (rows whose key is NaN are
dropped; the groupby sorts its keys, but every verified claim is invariant
under the order of this list, and the output of the engine is re-sorted at the
end). -/
def groupKeys {α : Type} [DecidableEq α] (df : List (ClimRow α)) : List (α × String) :=
  (df.filterMap (fun r => (mesSimplificado r.mes).map (fun m => (r.talhao, m)))).dedup

/-- Pandas `mean` aggregation of the column of one group: skip nulls, `NaN` when
every value is null. -/
def meanOpt (vals : List (Option ℚ)) : Option ℚ :=
  match vals.filterMap id with
  | [] => none
  | c :: cs => some ((c :: cs).sum / (c :: cs).length)

/-- The aggregated row of one group: the `agg` dictionary applies the `mean`
aggregation to each climate column of the group. -/
def mkAgRow {α : Type} [DecidableEq α] (df : List (ClimRow α)) (k : α × String) :
    AgRow α :=
  { talhao := k.1
    mes := k.2
    umidade := meanOpt ((grupo df k.1 k.2).map (fun r => r.umidade))
    precipitacao := meanOpt ((grupo df k.1 k.2).map (fun r => r.precipitacao))
    temp_maxima := meanOpt ((grupo df k.1 k.2).map (fun r => r.temp_maxima))
    temp_media := meanOpt ((grupo df k.1 k.2).map (fun r => r.temp_media)) }

/-- The historical aggregation (`ag`): one row per group carrying the mean of
each climate variable across all years of that calendar month. -/
def agrupar {α : Type} [DecidableEq α] (df : List (ClimRow α)) : List (AgRow α) :=
  (groupKeys df).map (mkAgRow df)

/-- Modelled from the spec: the weight vector `pesos_ahp` lives in `pesos.py`,
which is not part of the sources; §3 of the specification fixes its criterion
set and order ({umidade, precipitacao, temp_maxima, temp_media, eucalipto,
area_umida, represas_rios, estrada, eletrica, moradores, cerrado}) and
requires the weights to be non-negative.  The weights are kept as a record
field per criterion, so each weight multiplies its own criterion regardless
of enumeration order (the dot product of the source pairs weights and columns
through the same `ordem` list, which is equivalent). -/
structure Pesos where
  umidade : ℚ
  precipitacao : ℚ
  temp_maxima : ℚ
  temp_media : ℚ
  eucalipto : ℚ
  area_umida : ℚ
  represas_rios : ℚ
  estrada : ℚ
  eletrica : ℚ
  moradores : ℚ
  cerrado : ℚ
deriving DecidableEq

/-- The weights in the `ordem` enumeration order, as the numpy vector `w`. -/
def Pesos.lista (w : Pesos) : List ℚ :=
  [w.umidade, w.precipitacao, w.temp_maxima, w.temp_media, w.eucalipto,
   w.area_umida, w.represas_rios, w.estrada, w.eletrica, w.moradores, w.cerrado]

/-- One boolean site attribute turned into a 0/1 feature:
`bool(variaveis_talhao.get(str(t), {}).get(var, False))` then `astype(int)`. -/
def boolFeature {α : Type} (vt : String → String → Bool) (pyStr : α → String)
    (t : α) (var : String) : ℚ :=
  if vt (pyStr t) var then 1 else 0

/-- One row of `s_bruto = (X * w).sum(axis=1)`: the dot product of the per-row
feature vector with the weights, in `ordem` order.  A NaN in any of the four
normalized climate features makes the whole row sum NaN (IEEE `NaN * w = NaN`
and `NaN + x = NaN`); the seven boolean features are never NaN. -/
def sBrutoRow {α : Type} (w : Pesos) (vt : String → String → Bool)
    (pyStr : α → String) (t : α) (un pn txn tmn : Option ℚ) : Option ℚ :=
  match un, pn, txn, tmn with
  | some a, some b, some c, some d =>
    some (a * w.umidade + b * w.precipitacao + c * w.temp_maxima + d * w.temp_media +
      boolFeature vt pyStr t "eucalipto" * w.eucalipto +
      boolFeature vt pyStr t "area_umida" * w.area_umida +
      boolFeature vt pyStr t "represas_rios" * w.represas_rios +
      boolFeature vt pyStr t "estrada" * w.estrada +
      boolFeature vt pyStr t "eletrica" * w.eletrica +
      boolFeature vt pyStr t "moradores" * w.moradores +
      boolFeature vt pyStr t "cerrado" * w.cerrado)
  | _, _, _, _ => none

/-- The raw weighted scores of the aggregated table: normalize the four
climate columns globally (humidity and precipitation inverted), then take the
per-row dot product with the weights. -/
def sBruto {α : Type} (ag : List (AgRow α)) (w : Pesos)
    (vt : String → String → Bool) (pyStr : α → String) : List (Option ℚ) :=
  let un := normalizar_escala (ag.map (fun r => r.umidade)) true
  let pn := normalizar_escala (ag.map (fun r => r.precipitacao)) true
  let txn := normalizar_escala (ag.map (fun r => r.temp_maxima)) false
  let tmn := normalizar_escala (ag.map (fun r => r.temp_media)) false
  (ag.zip (un.zip (pn.zip (txn.zip tmn)))).map (fun p =>
    sBrutoRow w vt pyStr p.1.talhao p.2.1 p.2.2.1 p.2.2.2.1 p.2.2.2.2)

/-- The 0–100 rescaling of `calcular_scores_mensais` (lines 203–206):
`s_min = (zeros*w).sum()`, `s_max = (ones*w).sum()`, and either the linear
map through `(mn, mx)` or — when the two bounds coincide —
`np.zeros_like(s_bruto)`, which zeroes every row, NaN rows included. -/
def rescale (w : Pesos) (sb : List (Option ℚ)) : List (Option ℚ) :=
  let s_min := (w.lista.map (fun x => 0 * x)).sum
  let s_max := (w.lista.map (fun x => 1 * x)).sum
  let mn := min s_min s_max
  let mx := max s_min s_max
  if mx = mn then sb.map (fun _ => some (0 : ℚ))
  else sb.map (Option.map (fun q => (q - mn) / (mx - mn) * 100))

/-- Clip, `np.clip(s, 0, 100)`, on one cell; NaN passes through. -/
def clip100 (x : Option ℚ) : Option ℚ :=
  x.map (fun q => min (max q 0) 100)

/-- One row of the output table of the engine. -/
structure OutRow (α : Type) where
  talhao : α
  mes : String
  score : Option ℚ
deriving DecidableEq

/-- The sort key order of `out.sort_values(["talhao", "mes"])`: ascending by
plot id, ties broken ascending by month token. -/
def rowLe {α : Type} [LinearOrder α] (a b : OutRow α) : Prop :=
  a.talhao < b.talhao ∨ (a.talhao = b.talhao ∧ a.mes ≤ b.mes)

instance rowLeDecidable {α : Type} [LinearOrder α] : DecidableRel (@rowLe α _) :=
  fun a b => decidable_of_iff
    (a.talhao < b.talhao ∨ (a.talhao = b.talhao ∧ a.mes ≤ b.mes)) Iff.rfl

instance rowLeTotal {α : Type} [LinearOrder α] : IsTotal (OutRow α) rowLe := by
  constructor
  intro a b
  rcases lt_trichotomy a.talhao b.talhao with h | h | h
  · exact Or.inl (Or.inl h)
  · rcases le_total a.mes b.mes with hm | hm
    · exact Or.inl (Or.inr ⟨h, hm⟩)
    · exact Or.inr (Or.inr ⟨h.symm, hm⟩)
  · exact Or.inr (Or.inl h)

instance rowLeTrans {α : Type} [LinearOrder α] : IsTrans (OutRow α) rowLe := by
  constructor
  intro a b c hab hbc
  rcases hab with h1 | ⟨h1, h1'⟩
  · rcases hbc with h2 | ⟨h2, _⟩
    · exact Or.inl (h1.trans h2)
    · exact Or.inl (h2 ▸ h1)
  · rcases hbc with h2 | ⟨h2, h2'⟩
    · exact Or.inl (h1 ▸ h2)
    · exact Or.inr ⟨h1.trans h2, h1'.trans h2'⟩

/-- Function `calcular_scores_mensais`: aggregate the climate history per
`(talhao, month-of-year)`, normalize, combine with the boolean site
attributes through the weighted sum, rescale to 0–100, clip, and emit the
output table sorted by `(talhao, mes)`. -/
def calcular_scores_mensais {α : Type} [LinearOrder α] [DecidableEq α]
    (df : List (ClimRow α)) (vt : String → String → Bool) (w : Pesos)
    (pyStr : α → String) : List (OutRow α) :=
  let ag := agrupar df
  let s_final := (rescale w (sBruto ag w vt pyStr)).map clip100
  let out := (ag.zip s_final).map (fun p =>
    { talhao := p.1.talhao, mes := p.1.mes, score := p.2 : OutRow α })
  List.insertionSort rowLe out

/-- The risk-band boundaries `R_BINS` of `app.py`. -/
def R_BINS : List ℚ := [0, 20, 40, 60, 80, 100]

/-- The risk-band labels `R_LABELS` of `app.py`. -/
def R_LABELS : List String := ["R1", "R2", "R3", "R4", "R5"]

/-- The bin scan of `pd.cut(..., right=True)` once the value is known to be
at least the lowest edge: find the first upper edge at or above `s`.  Only
entered with `lo < s` or (for the lowest bin, `include_lowest=True`)
`lo ≤ s`, so each bin is `(lo, hi]`. -/
def pdCutAux (s : ℚ) : ℚ → List ℚ → List String → Option String
  | _, hi :: rest, lab :: labs =>
    if s ≤ hi then some lab else pdCutAux s hi rest labs
  | _, _, _ => none

/-- Binning, `pd.cut(s, bins, labels, right=True, include_lowest=True)`, for one value:
right-closed bins, the lowest bin closed on the left, `NaN` (here `none`)
outside the overall range. -/
def pdCut (s : ℚ) (bins : List ℚ) (labels : List String) : Option String :=
  match bins with
  | [] => none
  | lo :: rest => if lo ≤ s then pdCutAux s lo rest labels else none

/-- Function `class_geral_from_score` of `app.py`. -/
def class_geral_from_score (s : ℚ) : Option String :=
  pdCut s R_BINS R_LABELS

/-- Restriction of a table to one join key, as pandas matches keys during a merge. -/
def filtK {κ β : Type} [DecidableEq κ] (l : List (κ × β)) (k : κ) : List (κ × β) :=
  l.filter (fun p => decide (p.1 = k))

/-- The four climate long tables restricted to one key, in the situation
"the key occurs exactly once, in the `i`-th table only, with cell value `v`"
(tables in merge order: precipitation, max temp, mean temp, humidity). -/
def soloTables {κ : Type} (i : Fin 4) (k : κ) (v : Option ℚ) :
    List (κ × Option ℚ) × List (κ × Option ℚ) × List (κ × Option ℚ) × List (κ × Option ℚ) :=
  match i with
  | 0 => ([(k, v)], [], [], [])
  | 1 => ([], [(k, v)], [], [])
  | 2 => ([], [], [(k, v)], [])
  | 3 => ([], [], [], [(k, v)])

/-- The merged record expected for such a key: `v` in the column of the `i`-th variable and null in the other three. -/
def soloExpected (i : Fin 4) (v : Option ℚ) :
    ((Option ℚ × Option ℚ) × Option ℚ) × Option ℚ :=
  match i with
  | 0 => (((v, none), none), none)
  | 1 => (((none, v), none), none)
  | 2 => (((none, none), v), none)
  | 3 => (((none, none), none), v)

/-- The hypothesis that the key is present in exactly one of the four climate
variables:
its only occurrence is a single row of the `i`-th table with value `v`. -/
def soloHyp {κ : Type} [DecidableEq κ] (i : Fin 4)
    (prec tmax tmed umid : List (κ × Option ℚ)) (k : κ) (v : Option ℚ) : Prop :=
  (filtK prec k, filtK tmax k, filtK tmed k, filtK umid k) = soloTables i k v

/-- Total weight, `s_max = (np.ones_like(w) * w).sum()`, which is the
theoretical maximum raw score (all features equal to 1). -/
def somaPesos (w : Pesos) : ℚ :=
  w.lista.sum

/-- Concrete fixtures used by the closed witness and counterexample
theorems. -/
def wOnes : Pesos :=
  ⟨1, 1, 1, 1, 1, 1, 1, 1, 1, 1, 1⟩

def vtFalse : String → String → Bool :=
  fun _ _ => false

/-- One plot, one month, every climate cell null. -/
def dfNulo : List (ClimRow String) :=
  [⟨"1", "jan_2021", none, none, none, none⟩]

/-- One plot, one month, all climate cells present. -/
def dfUmaLinha : List (ClimRow String) :=
  [⟨"1", "jan_2021", some 10, some 30, some 25, some 50⟩]

/-- One plot observed in June of two different years, `temp_maxima` 30 and
34, the other criteria constant. -/
def dfJunho : List (ClimRow String) :=
  [⟨"P1", "jun_2021", some 1, some 30, some 1, some 1⟩,
   ⟨"P1", "jun_2022", some 1, some 34, some 1, some 1⟩]

/-- A dataframe whose plot ids are integers, as an uploaded workbook with a
numeric `Pontos` column produces. -/
def dfInteiro : List (ClimRow ℤ) :=
  [⟨1, "jan_2021", some 1, some 1, some 1, some 1⟩]

/-- A workbook with only three of the four required sheets. -/
def abasTres : List (String × Aba String) :=
  [("Precipitacao_total", ⟨[], []⟩), ("Temp_max", ⟨[], []⟩),
   ("Temp_média_final", ⟨[], []⟩)]

/-! ## Theorems -/

/-- C3: every score in `[0,100]` falls in exactly one of the five bands
`R1..R5` cut at `[0,20,40,60,80,100]` with right-closed, left-open bins and
the lowest bin closed on the left; the boundaries resolve upward, so `s = 20`
is `R1` and `s = 40` is `R2`. -/
theorem classificacao_r1_r5 :
    (∀ s : ℚ, 0 ≤ s → s ≤ 100 →
      ∃! r, class_geral_from_score s = some r ∧ r ∈ R_LABELS) ∧
    class_geral_from_score 20 = some "R1" ∧
    class_geral_from_score 40 = some "R2" := by
  refine ⟨?_, ?_, ?_⟩
  · intro s h0 h100
    simp only [class_geral_from_score, pdCut, R_BINS, R_LABELS, pdCutAux, if_pos h0]
    split_ifs with h1 h2 h3 h4
    · exact ⟨"R1", ⟨rfl, by simp⟩, fun y hy => (Option.some.inj hy.1).symm⟩
    · exact ⟨"R2", ⟨rfl, by simp⟩, fun y hy => (Option.some.inj hy.1).symm⟩
    · exact ⟨"R3", ⟨rfl, by simp⟩, fun y hy => (Option.some.inj hy.1).symm⟩
    · exact ⟨"R4", ⟨rfl, by simp⟩, fun y hy => (Option.some.inj hy.1).symm⟩
    · exact ⟨"R5", ⟨rfl, by simp⟩, fun y hy => (Option.some.inj hy.1).symm⟩
  · norm_num [class_geral_from_score, pdCut, R_BINS, R_LABELS, pdCutAux]
  · norm_num [class_geral_from_score, pdCut, R_BINS, R_LABELS, pdCutAux]

/-- C3, witness: the totality part applied at the concrete score 50. -/
theorem classificacao_r1_r5_witness :
    ∃! r, class_geral_from_score 50 = some r ∧ r ∈ R_LABELS :=
  classificacao_r1_r5.1 50 (by norm_num) (by norm_num)

/-- When no sheet name matches, `ler_aba` finds nothing. -/
theorem ler_aba_nenhuma {σ : Type} (abas : List (String × σ)) (nome : String)
    (h : ∀ p ∈ abas, abaMatch nome p.1 = false) : ler_aba abas nome = none := by
  induction abas with
  | nil => rfl
  | cons a rest ih =>
    obtain ⟨n, s⟩ := a
    have h0 : abaMatch nome n = false := h (n, s) (by simp)
    simp only [ler_aba, h0, Bool.false_eq_true, if_false]
    exact ih fun p hp => h p (List.mem_cons_of_mem _ hp)

/-- C10: when several sheet names contain the target substring
(case-insensitively), `ler_aba` returns the sheet that comes first in the sheet
order of the workbook and ignores the later matches. -/
theorem ler_aba_primeira {σ : Type} (pre post : List (String × σ))
    (nome a : String) (sh : σ)
    (hpre : ∀ p ∈ pre, abaMatch nome p.1 = false)
    (ha : abaMatch nome a = true) :
    ler_aba (pre ++ (a, sh) :: post) nome = some sh := by
  induction pre with
  | nil => simp [ler_aba, ha]
  | cons q rest ih =>
    obtain ⟨n, s⟩ := q
    have h0 : abaMatch nome n = false := hpre (n, s) (by simp)
    simp only [List.cons_append, ler_aba, h0, Bool.false_eq_true, if_false]
    exact ih fun p hp => hpre p (List.mem_cons_of_mem _ hp)

/-- C10, witness: a workbook in which the second and the third sheet both
match `"Temp_max"`; the second (first match in sheet order) is returned. -/
theorem ler_aba_primeira_witness :
    ler_aba [("Resumo", 1), ("planilha TEMP_MAX 2021", 2), ("Temp_max extra", 3)]
      "Temp_max" = some 2 :=
  ler_aba_primeira [("Resumo", 1)] [("Temp_max extra", 3)] "Temp_max"
    "planilha TEMP_MAX 2021" 2 (by decide) (by decide)

/-- C4: when any of the four required sheets has no case-insensitive
substring match in the workbook, `carregar_base_reme` aborts the whole
ingestion with the missing-sheet error, producing no table at all (so no
scoring can take place). -/
theorem falta_aba_aborta {α : Type} [DecidableEq α] (abas : List (String × Aba α))
    (h : (∀ p ∈ abas, abaMatch "Precipitacao_total" p.1 = false) ∨
         (∀ p ∈ abas, abaMatch "Temp_max" p.1 = false) ∨
         (∀ p ∈ abas, abaMatch "Temp_média_final" p.1 = false) ∨
         (∀ p ∈ abas, abaMatch "Umidade_Relativa" p.1 = false)) :
    carregar_base_reme abas = .error missingSheetMsg := by
  have key : ler_aba abas "Precipitacao_total" = none ∨
      ler_aba abas "Temp_max" = none ∨
      ler_aba abas "Temp_média_final" = none ∨
      ler_aba abas "Umidade_Relativa" = none := by
    rcases h with h | h | h | h
    · exact Or.inl (ler_aba_nenhuma _ _ h)
    · exact Or.inr (Or.inl (ler_aba_nenhuma _ _ h))
    · exact Or.inr (Or.inr (Or.inl (ler_aba_nenhuma _ _ h)))
    · exact Or.inr (Or.inr (Or.inr (ler_aba_nenhuma _ _ h)))
  rcases hp : ler_aba abas "Precipitacao_total" with _ | dfP <;>
  rcases ht : ler_aba abas "Temp_max" with _ | dfT <;>
  rcases hm : ler_aba abas "Temp_média_final" with _ | dfM <;>
  rcases hu : ler_aba abas "Umidade_Relativa" with _ | dfU <;>
  simp only [carregar_base_reme, hp, ht, hm, hu]
  all_goals simp_all

/-- C4, witness: a workbook carrying only the three other sheets (the
humidity sheet absent under every casing, within the substring rule) makes
ingestion fail with the missing-sheet error. -/
theorem falta_aba_aborta_witness :
    carregar_base_reme abasTres = .error missingSheetMsg :=
  falta_aba_aborta abasTres (Or.inr (Or.inr (Or.inr (by decide))))

/-- Folding `min` over a list of copies of `a` gives `a`. -/
theorem foldl_min_const (a : ℚ) :
    ∀ (xs : List ℚ) (x : ℚ), x = a → (∀ y ∈ xs, y = a) → xs.foldl min x = a := by
  intro xs
  induction xs with
  | nil => intro x hx _; simpa using hx
  | cons y ys ih =>
    intro x hx hall
    have hy : y = a := hall y (by simp)
    simp only [List.foldl_cons]
    exact ih (min x y) (by rw [hx, hy, min_self]) (fun z hz => hall z (by simp [hz]))

/-- Folding `max` over a list of copies of `a` gives `a`. -/
theorem foldl_max_const (a : ℚ) :
    ∀ (xs : List ℚ) (x : ℚ), x = a → (∀ y ∈ xs, y = a) → xs.foldl max x = a := by
  intro xs
  induction xs with
  | nil => intro x hx _; simpa using hx
  | cons y ys ih =>
    intro x hx hall
    have hy : y = a := hall y (by simp)
    simp only [List.foldl_cons]
    exact ih (max x y) (by rw [hx, hy, max_self]) (fun z hz => hall z (by simp [hz]))

/-- C1, counterexample: a zero-variance column run through an inverted
criterion normalizes to 1 on every row, not 0 — the `1 - out` inversion is
applied after the degenerate branch already produced the constant 0. -/
theorem normalizar_zero_variancia_contraexemplo :
    normalizar_escala [some 5, some 5] true = [some 1, some 1] ∧
    normalizar_escala [some 5, some 5] true ≠ [some 0, some 0] := by
  constructor
  · norm_num [normalizar_escala, List.filterMap_cons, min_self, max_self]
  · norm_num [normalizar_escala, List.filterMap_cons, min_self, max_self]

/-- C1, amended: a numeric criterion whose observed (non-null) values are all
equal — its min equals its max — normalizes to 0 on every row for the direct
criteria (`temp_maxima`, `temp_media`) and to 1 on every row for the inverted
criteria (`umidade`, `precipitacao`), null rows included. -/
theorem normalizar_zero_variancia (v : List (Option ℚ)) (a : ℚ)
    (h1 : some a ∈ v) (h2 : ∀ b : ℚ, some b ∈ v → b = a) :
    normalizar_escala v false = v.map (fun _ => some 0) ∧
    normalizar_escala v true = v.map (fun _ => some 1) := by
  have hmem : a ∈ v.filterMap id := List.mem_filterMap.mpr ⟨some a, h1, rfl⟩
  rcases hv : v.filterMap id with _ | ⟨x, xs⟩
  · rw [hv] at hmem; cases hmem
  · have hall : ∀ y ∈ x :: xs, y = a := by
      intro y hy
      rw [← hv] at hy
      obtain ⟨b, hb, hb2⟩ := List.mem_filterMap.mp hy
      simp only [id_eq] at hb2
      rw [hb2] at hb
      exact h2 y hb
    have hx : x = a := hall x (by simp)
    have hmin : xs.foldl min x = a :=
      foldl_min_const a xs x hx (fun y hy => hall y (by simp [hy]))
    have hmax : xs.foldl max x = a :=
      foldl_max_const a xs x hx (fun y hy => hall y (by simp [hy]))
    constructor
    · simp [normalizar_escala, hv, hmin, hmax]
    · simp only [normalizar_escala, hv, hmin, hmax, if_pos rfl, if_true,
        List.map_map]
      refine List.map_congr_left fun z _ => ?_
      norm_num [Function.comp]

/-- C1, witness: the amended statement at a concrete zero-variance column
containing a null row. -/
theorem normalizar_zero_variancia_witness :
    normalizar_escala [some 7, none, some 7] false = [some 0, some 0, some 0] ∧
    normalizar_escala [some 7, none, some 7] true = [some 1, some 1, some 1] := by
  have h := normalizar_zero_variancia [some 7, none, some 7] 7 (by simp)
    (by intro b hb; simpa using hb)
  exact ⟨by simpa using h.1, by simpa using h.2⟩

/-- The running `min` fold is a lower bound of the seed and every element. -/
theorem foldl_min_le :
    ∀ (xs : List ℚ) (x : ℚ), ∀ y ∈ x :: xs, xs.foldl min x ≤ y := by
  intro xs
  induction xs with
  | nil =>
    intro x y hy
    simp only [List.mem_singleton] at hy
    simp [hy]
  | cons z zs ih =>
    intro x y hy
    simp only [List.foldl_cons]
    rcases List.mem_cons.mp hy with hy | hy
    · exact le_trans (ih (min x z) (min x z) (by simp)) (by simp [hy, min_le_left])
    · rcases List.mem_cons.mp hy with hy | hy
      · exact le_trans (ih (min x z) (min x z) (by simp)) (by simp [hy, min_le_right])
      · exact ih (min x z) y (List.mem_cons_of_mem _ hy)

/-- The running `max` fold is an upper bound of the seed and every element. -/
theorem le_foldl_max :
    ∀ (xs : List ℚ) (x : ℚ), ∀ y ∈ x :: xs, y ≤ xs.foldl max x := by
  intro xs
  induction xs with
  | nil =>
    intro x y hy
    simp only [List.mem_singleton] at hy
    simp [hy]
  | cons z zs ih =>
    intro x y hy
    simp only [List.foldl_cons]
    rcases List.mem_cons.mp hy with hy | hy
    · exact le_trans (by simp [hy, le_max_left]) (ih (max x z) (max x z) (by simp))
    · rcases List.mem_cons.mp hy with hy | hy
      · exact le_trans (by simp [hy, le_max_right]) (ih (max x z) (max x z) (by simp))
      · exact ih (max x z) y (List.mem_cons_of_mem _ hy)

/-- C5: feature normalization is monotone row-to-row within one column — in
the inverted sense used for `umidade`/`precipitacao` (`inverter = true`) a
strictly higher raw value never gets a strictly higher normalized value, and
in the direct sense used for the two temperature criteria
(`inverter = false`) it never gets a lower one. -/
theorem normalizacao_monotona (v : List (Option ℚ)) (i j : ℕ) (a b : ℚ)
    (hi : v[i]? = some (some a)) (hj : v[j]? = some (some b)) (hab : a < b) :
    (∃ na nb, (normalizar_escala v true)[i]? = some (some na) ∧
              (normalizar_escala v true)[j]? = some (some nb) ∧ nb ≤ na) ∧
    (∃ na nb, (normalizar_escala v false)[i]? = some (some na) ∧
              (normalizar_escala v false)[j]? = some (some nb) ∧ na ≤ nb) := by
  have hma : some a ∈ v := List.getElem?_mem hi
  have hmb : some b ∈ v := List.getElem?_mem hj
  have ha' : a ∈ v.filterMap id := List.mem_filterMap.mpr ⟨some a, hma, rfl⟩
  have hb' : b ∈ v.filterMap id := List.mem_filterMap.mpr ⟨some b, hmb, rfl⟩
  rcases hv : v.filterMap id with _ | ⟨x, xs⟩
  · rw [hv] at ha'; cases ha'
  · rw [hv] at ha' hb'
    have h1 : xs.foldl min x ≤ a := foldl_min_le xs x a ha'
    have h2 : b ≤ xs.foldl max x := le_foldl_max xs x b hb'
    have hlt : xs.foldl min x < xs.foldl max x :=
      lt_of_le_of_lt h1 (lt_of_lt_of_le hab h2)
    have hne : ¬ (xs.foldl max x = xs.foldl min x) := ne_of_gt hlt
    have hd : (0 : ℚ) < xs.foldl max x - xs.foldl min x := sub_pos.mpr hlt
    have hmono : (a - xs.foldl min x) / (xs.foldl max x - xs.foldl min x) ≤
        (b - xs.foldl min x) / (xs.foldl max x - xs.foldl min x) :=
      (div_le_div_iff_of_pos_right hd).mpr (sub_le_sub_right hab.le _)
    have hfalse : normalizar_escala v false =
        v.map (Option.map fun q => (q - xs.foldl min x) / (xs.foldl max x - xs.foldl min x)) := by
      simp [normalizar_escala, hv, hne]
    have htrue : normalizar_escala v true =
        (v.map (Option.map fun q => (q - xs.foldl min x) / (xs.foldl max x - xs.foldl min x))).map
          (Option.map fun q => 1 - q) := by
      simp [normalizar_escala, hv, hne]
    constructor
    · refine ⟨1 - (a - xs.foldl min x) / (xs.foldl max x - xs.foldl min x),
             1 - (b - xs.foldl min x) / (xs.foldl max x - xs.foldl min x), ?_, ?_, ?_⟩
      · rw [htrue, List.getElem?_map, List.getElem?_map, hi]; rfl
      · rw [htrue, List.getElem?_map, List.getElem?_map, hj]; rfl
      · exact sub_le_sub_left hmono 1
    · refine ⟨(a - xs.foldl min x) / (xs.foldl max x - xs.foldl min x),
             (b - xs.foldl min x) / (xs.foldl max x - xs.foldl min x), ?_, ?_, ?_⟩
      · rw [hfalse, List.getElem?_map, hi]; rfl
      · rw [hfalse, List.getElem?_map, hj]; rfl
      · exact hmono

/-- C5, witness: the monotonicity statement at the concrete column
`[some 10, some 20, none]`, rows 0 and 1. -/
theorem normalizacao_monotona_witness :
    (∃ na nb, (normalizar_escala [some 10, some 20, none] true)[0]? = some (some na) ∧
              (normalizar_escala [some 10, some 20, none] true)[1]? = some (some nb) ∧ nb ≤ na) ∧
    (∃ na nb, (normalizar_escala [some 10, some 20, none] false)[0]? = some (some na) ∧
              (normalizar_escala [some 10, some 20, none] false)[1]? = some (some nb) ∧ na ≤ nb) :=
  normalizacao_monotona [some 10, some 20, none] 0 1 10 20 (by simp) (by simp) (by norm_num)

/-- C6: the 0–100 rescale uses the theoretical bounds — minimum 0 (all
features 0) and maximum the total weight (all features 1) — not any empirical
min/max of the observed raw scores: each row is mapped by the fixed linear
map `(s - 0) / (total - 0) * 100`, independent of the other rows; and when
the total weight is 0 (all weights zero, the bounds coincide) the score of every row is set to 0. -/
theorem rescale_limites_teoricos (w : Pesos) (sb : List (Option ℚ))
    (h : ∀ x ∈ w.lista, 0 ≤ x) :
    (somaPesos w = 0 → rescale w sb = sb.map (fun _ => some 0)) ∧
    (somaPesos w ≠ 0 → rescale w sb =
      sb.map (Option.map (fun q => (q - 0) / (somaPesos w - 0) * 100))) := by
  have hmin : (w.lista.map (fun x => (0 : ℚ) * x)).sum = 0 := by
    apply List.sum_eq_zero
    intro x hx
    obtain ⟨y, _, rfl⟩ := List.mem_map.mp hx
    ring
  have hmax : (w.lista.map (fun x => (1 : ℚ) * x)).sum = w.lista.sum := by
    simp
  have h0 : (0 : ℚ) ≤ w.lista.sum := List.sum_nonneg h
  constructor
  · intro hz
    simp only [somaPesos] at hz
    simp only [rescale, hmin, hmax, hz]
    simp
  · intro hnz
    simp only [somaPesos] at hnz ⊢
    simp only [rescale, hmin, hmax, min_eq_left h0, max_eq_right h0]
    rw [if_neg hnz]

/-- C6, witness: the two branches at concrete weights — the all-ones weight
vector rescales a raw score of 11 to 100, and the all-zero weight vector
sends every row (null rows included) to 0. -/
theorem rescale_limites_teoricos_witness :
    rescale wOnes [some 11] = [some 100] ∧
    rescale ⟨0, 0, 0, 0, 0, 0, 0, 0, 0, 0, 0⟩ [some 3, none] = [some 0, some 0] := by
  constructor
  · have h := (rescale_limites_teoricos wOnes [some 11]
      (by norm_num [wOnes, Pesos.lista])).2
      (by norm_num [somaPesos, wOnes, Pesos.lista])
    rw [h]
    norm_num [somaPesos, wOnes, Pesos.lista]
  · have h := (rescale_limites_teoricos ⟨0, 0, 0, 0, 0, 0, 0, 0, 0, 0, 0⟩ [some 3, none]
      (by norm_num [Pesos.lista])).1
      (by norm_num [somaPesos, Pesos.lista])
    rw [h]
    norm_num

/-- Evaluation of the engine on the one-row, all-cells-present fixture: the
raw score is 2 (the two inverted zero-variance criteria contribute 1 each)
out of a total weight of 11, rescaled to `200/11`. -/
theorem calculo_uma_linha_eval :
    calcular_scores_mensais dfUmaLinha vtFalse wOnes id =
      [⟨"1", "jan", some (200 / 11)⟩] := by
  have h1 : mesSimplificado "jan_2021" = some "jan" := by decide
  have hag : agrupar dfUmaLinha = [⟨"1", "jan", some 50, some 10, some 30, some 25⟩] := by
    norm_num [agrupar, mkAgRow, groupKeys, grupo, dfUmaLinha, meanOpt, h1,
      List.filterMap_cons, List.dedup_cons_of_mem, List.dedup_cons_of_not_mem]
  have hsb : sBruto [⟨"1", "jan", some 50, some 10, some 30, some 25⟩] wOnes vtFalse id =
      [some 2] := by
    norm_num [sBruto, sBrutoRow, normalizar_escala, boolFeature, wOnes, vtFalse,
      List.filterMap_cons]
  have hrs : rescale wOnes [some 2] = [some (200 / 11)] := by
    norm_num [rescale, wOnes, Pesos.lista]
  simp only [calcular_scores_mensais, hag, hsb, hrs]
  norm_num [clip100, List.insertionSort, List.orderedInsert]

/-- C2, counterexample: a table whose only row has every climate cell null
produces the NaN score (modelled `none`), which does not lie in `[0,100]` —
NaN propagates through the weighted sum and through `np.clip`. -/
theorem score_nan_contraexemplo :
    calcular_scores_mensais dfNulo vtFalse wOnes id = [⟨"1", "jan", none⟩] ∧
    ¬ (∀ r ∈ calcular_scores_mensais dfNulo vtFalse wOnes id,
        ∃ q : ℚ, r.score = some q ∧ 0 ≤ q ∧ q ≤ 100) := by
  have hag : agrupar dfNulo = [⟨"1", "jan", none, none, none, none⟩] := by decide
  have hsb : sBruto [⟨"1", "jan", none, none, none, none⟩] wOnes vtFalse id = [none] := by
    decide
  have hrs : rescale wOnes [none] = [none] := by norm_num [rescale, wOnes, Pesos.lista]
  have hcalc : calcular_scores_mensais dfNulo vtFalse wOnes id = [⟨"1", "jan", none⟩] := by
    simp only [calcular_scores_mensais, hag, hsb, hrs]
    norm_num [clip100, List.insertionSort, List.orderedInsert]
  refine ⟨hcalc, fun hall => ?_⟩
  obtain ⟨q, hq, -, -⟩ := hall ⟨"1", "jan", none⟩ (by rw [hcalc]; simp)
  cases hq

/-- C2, amended: every score the engine emits is either in `[0,100]` (the
final `np.clip` guarantees this for every numeric score, with any weights and
any input table) or the NaN score `none`, which arises exactly when some
normalized climate feature of the row is NaN — in particular when all climate
values are null. -/
theorem score_limites {α : Type} [LinearOrder α] [DecidableEq α]
    (df : List (ClimRow α)) (vt : String → String → Bool) (w : Pesos)
    (pyStr : α → String) :
    ∀ r ∈ calcular_scores_mensais df vt w pyStr,
      r.score = none ∨ ∃ q, r.score = some q ∧ 0 ≤ q ∧ q ≤ 100 := by
  intro r hr
  simp only [calcular_scores_mensais] at hr
  rw [(List.perm_insertionSort rowLe _).mem_iff] at hr
  obtain ⟨p, hp, rfl⟩ := List.mem_map.mp hr
  have h2 := (List.of_mem_zip hp).2
  obtain ⟨x, -, hx⟩ := List.mem_map.mp h2
  cases x with
  | none =>
    left
    simp only [clip100, Option.map_none'] at hx
    exact hx.symm
  | some q =>
    right
    refine ⟨min (max q 0) 100, ?_, ?_, ?_⟩
    · simp only [clip100, Option.map_some'] at hx
      exact hx.symm
    · exact le_min (le_max_right q 0) (by norm_num)
    · exact min_le_right _ _


/-- C2, witness: the bound statement applied to the concrete output row of
the one-row fixture, whose score is `200/11`. -/
theorem score_limites_witness :
    (⟨"1", "jan", some (200 / 11)⟩ : OutRow String).score = none ∨
    ∃ q, (⟨"1", "jan", some (200 / 11)⟩ : OutRow String).score = some q ∧
      0 ≤ q ∧ q ≤ 100 :=
  score_limites dfUmaLinha vtFalse wOnes id ⟨"1", "jan", some (200 / 11)⟩
    (by rw [calculo_uma_linha_eval]; simp)

/-- In a duplicate-free list, filtering for one of its members yields exactly
that one element. -/
theorem filter_eq_singleton_of_nodup {β : Type} [DecidableEq β] :
    ∀ (l : List β) (a : β), l.Nodup → a ∈ l →
      l.filter (fun x => decide (x = a)) = [a] := by
  intro l
  induction l with
  | nil => intro a _ ha; cases ha
  | cons b l ih =>
    intro a hnd ha
    obtain ⟨hb, hl⟩ := List.nodup_cons.mp hnd
    rcases List.mem_cons.mp ha with rfl | ha'
    · simp only [List.filter_cons, decide_eq_true_eq, if_pos rfl]
      have : l.filter (fun x => decide (x = a)) = [] := by
        rw [List.filter_eq_nil_iff]
        intro x hx
        simp only [decide_eq_true_eq]
        intro hxa
        exact hb (hxa ▸ hx)
      simp [this]
    · have hba : ¬ (b = a) := fun h => hb (h ▸ ha')
      simp only [List.filter_cons, decide_eq_true_eq, if_neg hba]
      exact ih a hl ha'

/-- Filtering a mapped list by a predicate that factors through the map. -/
theorem filter_map_keyed {β γ : Type} (l : List β) (f : β → γ)
    (p : γ → Bool) (q : β → Bool) (hq : ∀ b, p (f b) = q b) :
    (l.map f).filter p = (l.filter q).map f := by
  rw [List.filter_map]
  congr 1
  exact List.filter_congr fun b _ => hq b

/-- C7: the historical aggregation has exactly one row for each
`(plot, month-of-year)` pair observed in the data, and that row carries the
per-criterion mean over ALL of the rows that the plot has for that calendar month across
every year, taken before any normalization. -/
theorem agregacao_historica {α : Type} [DecidableEq α] (df : List (ClimRow α))
    (t : α) (m : String)
    (h : ∃ r ∈ df, r.talhao = t ∧ mesSimplificado r.mes = some m) :
    (agrupar df).filter (fun g => decide (g.talhao = t ∧ g.mes = m)) =
      [{ talhao := t, mes := m,
         umidade := meanOpt ((grupo df t m).map (fun r => r.umidade)),
         precipitacao := meanOpt ((grupo df t m).map (fun r => r.precipitacao)),
         temp_maxima := meanOpt ((grupo df t m).map (fun r => r.temp_maxima)),
         temp_media := meanOpt ((grupo df t m).map (fun r => r.temp_media)) }] := by
  obtain ⟨r, hr, ht, hm⟩ := h
  have hk : (t, m) ∈ groupKeys df :=
    List.mem_dedup.mpr (List.mem_filterMap.mpr ⟨r, hr, by rw [hm]; simp [ht]⟩)
  have hnd : (groupKeys df).Nodup := List.nodup_dedup _
  unfold agrupar
  rw [filter_map_keyed (groupKeys df) (mkAgRow df)
    (fun g : AgRow α => decide (g.talhao = t ∧ g.mes = m))
    (fun k : α × String => decide (k = (t, m)))
    (fun k => decide_eq_decide.mpr
      ⟨fun hke => Prod.ext hke.1 hke.2, fun hke => by rw [hke]; exact ⟨rfl, rfl⟩⟩)]
  rw [filter_eq_singleton_of_nodup _ _ hnd hk]
  simp [mkAgRow]

/-- C7, witness: the plot "P1" with `temp_maxima` 30 in `jun_2021` and 34 in
`jun_2022` aggregates to a single `(P1, jun)` row whose `temp_maxima` is the
mean 32. -/
theorem agregacao_historica_witness :
    (agrupar dfJunho).filter (fun g => decide (g.talhao = "P1" ∧ g.mes = "jun")) =
      [⟨"P1", "jun", some 1, some 1, some 32, some 1⟩] := by
  have h1 : mesSimplificado "jun_2021" = some "jun" := by decide
  have h2 : mesSimplificado "jun_2022" = some "jun" := by decide
  rw [agregacao_historica dfJunho "P1" "jun"
    ⟨⟨"P1", "jun_2021", some 1, some 30, some 1, some 1⟩, by simp [dfJunho], rfl, h1⟩]
  norm_num [grupo, dfJunho, meanOpt, h1, h2, List.filterMap_cons]

/-- Every row `mergeRow` emits for a left row `p` is keyed `p.1`, so a key
filter keeps either all of them or none. -/
theorem mergeRow_keys {κ β γ : Type} [DecidableEq κ]
    (r : List (κ × γ)) (nullγ : γ) (p : κ × β) :
    ∀ x ∈ mergeRow r nullγ p, x.1 = p.1 := by
  intro x hx
  simp only [mergeRow] at hx
  split at hx
  · simp only [List.mem_singleton] at hx
    rw [hx]
  · obtain ⟨q, -, rfl⟩ := List.mem_map.mp hx
    rfl

theorem filter_mergeRow {κ β γ : Type} [DecidableEq κ]
    (r : List (κ × γ)) (nullγ : γ) (p : κ × β) (k : κ) :
    (mergeRow r nullγ p).filter (fun x => decide (x.1 = k)) =
      if p.1 = k then mergeRow r nullγ p else [] := by
  by_cases hpk : p.1 = k
  · rw [if_pos hpk]
    apply List.filter_eq_self.mpr
    intro x hx
    simp [mergeRow_keys r nullγ p x hx, hpk]
  · rw [if_neg hpk]
    apply List.filter_eq_nil_iff.mpr
    intro x hx
    simp only [decide_eq_true_eq]
    intro hxk
    exact hpk ((mergeRow_keys r nullγ p x hx) ▸ hxk)

/-- A key filter over the left half of the outer merge is the merge of the
key-filtered left rows. -/
theorem filter_flatMap_merge {κ β γ : Type} [DecidableEq κ]
    (r : List (κ × γ)) (nullγ : γ) (k : κ) :
    ∀ l : List (κ × β),
      (l.flatMap (mergeRow r nullγ)).filter (fun x => decide (x.1 = k)) =
        (l.filter (fun p => decide (p.1 = k))).flatMap (mergeRow r nullγ) := by
  intro l
  induction l with
  | nil => simp
  | cons p l ih =>
    simp only [List.flatMap_cons, List.filter_append, ih, List.filter_cons]
    by_cases hpk : p.1 = k
    · simp [filter_mergeRow, hpk]
    · simp [filter_mergeRow, hpk]

/-- A key absent from the right table contributes nothing to the right-only
half of the outer merge. -/
theorem filter_rightOnly_of_absent {κ β γ : Type} [DecidableEq κ]
    (l : List (κ × β)) (r : List (κ × γ)) (nullβ : β) (k : κ)
    (hr : r.filter (fun p => decide (p.1 = k)) = []) :
    ((r.filter (fun q => decide (∀ p ∈ l, ¬ p.1 = q.1))).map
        (fun q => (q.1, nullβ, q.2))).filter (fun x => decide (x.1 = k)) = [] := by
  rw [filter_map_keyed (r.filter (fun q => decide (∀ p ∈ l, ¬ p.1 = q.1)))
    (fun q : κ × γ => (q.1, nullβ, q.2))
    (fun x : κ × β × γ => decide (x.1 = k))
    (fun q : κ × γ => decide (q.1 = k)) (fun q => rfl)]
  rw [List.filter_comm, hr]
  simp

/-- Outer merge, key present exactly once on the left and absent on the
right: the key survives as one row with the null right record. -/
theorem merge_left_solo {κ β γ : Type} [DecidableEq κ]
    (l : List (κ × β)) (r : List (κ × γ)) (nullβ : β) (nullγ : γ) (k : κ) (b : β)
    (hl : l.filter (fun p => decide (p.1 = k)) = [(k, b)])
    (hr : r.filter (fun p => decide (p.1 = k)) = []) :
    (outerMergeOn l r nullβ nullγ).filter (fun x => decide (x.1 = k)) =
      [(k, b, nullγ)] := by
  unfold outerMergeOn
  rw [List.filter_append, filter_flatMap_merge, hl,
    filter_rightOnly_of_absent l r nullβ k hr]
  simp only [List.flatMap_cons, List.flatMap_nil, List.append_nil]
  unfold mergeRow
  simp only []
  rw [show (fun q : κ × γ => decide (q.1 = (k, b).1)) = fun q => decide (q.1 = k) from rfl,
    hr]
  simp

/-- Outer merge, key absent on the left and present exactly once on the
right: the key survives as one row with the null left record. -/
theorem merge_right_solo {κ β γ : Type} [DecidableEq κ]
    (l : List (κ × β)) (r : List (κ × γ)) (nullβ : β) (nullγ : γ) (k : κ) (c : γ)
    (hl : l.filter (fun p => decide (p.1 = k)) = [])
    (hr : r.filter (fun p => decide (p.1 = k)) = [(k, c)]) :
    (outerMergeOn l r nullβ nullγ).filter (fun x => decide (x.1 = k)) =
      [(k, nullβ, c)] := by
  unfold outerMergeOn
  rw [List.filter_append, filter_flatMap_merge, hl]
  rw [filter_map_keyed (r.filter (fun q => decide (∀ p ∈ l, ¬ p.1 = q.1)))
    (fun q : κ × γ => (q.1, nullβ, q.2))
    (fun x : κ × β × γ => decide (x.1 = k))
    (fun q : κ × γ => decide (q.1 = k)) (fun q => rfl)]
  rw [List.filter_comm, hr]
  have hnoL : ∀ p ∈ l, ¬ p.1 = k := by
    intro p hp
    have := List.filter_eq_nil_iff.mp hl p hp
    simpa using this
  have hd : decide (∀ p ∈ l, ¬ p.1 = (k, c).1) = true := decide_eq_true (by simpa using hnoL)
  rw [List.filter_cons, hd]
  simp

/-- Outer merge, key absent on both sides: the key is absent from the
result. -/
theorem merge_none_solo {κ β γ : Type} [DecidableEq κ]
    (l : List (κ × β)) (r : List (κ × γ)) (nullβ : β) (nullγ : γ) (k : κ)
    (hl : l.filter (fun p => decide (p.1 = k)) = [])
    (hr : r.filter (fun p => decide (p.1 = k)) = []) :
    (outerMergeOn l r nullβ nullγ).filter (fun x => decide (x.1 = k)) = [] := by
  unfold outerMergeOn
  rw [List.filter_append, filter_flatMap_merge, hl,
    filter_rightOnly_of_absent l r nullβ k hr]
  simp

/-- C8: the chained merges of the four per-variable long tables form a full
outer join on `(Pontos, Mes_Ano)`: a key present exactly once in exactly one
of the four climate variables appears exactly once in the consolidated
table, carrying the cell of that variable and nulls for the three absent
variables. -/
theorem juncao_outer_completa {κ : Type} [DecidableEq κ] (i : Fin 4)
    (prec tmax tmed umid : List (κ × Option ℚ)) (k : κ) (v : Option ℚ)
    (h : soloHyp i prec tmax tmed umid k v) :
    (mergeClimatico prec tmax tmed umid).filter (fun x => decide (x.1 = k)) =
      [(k, soloExpected i v)] := by
  fin_cases i <;>
    (simp only [soloHyp, soloTables, filtK, Prod.mk.injEq] at h
     obtain ⟨h1, h2, h3, h4⟩ := h)
  · rw [show mergeClimatico prec tmax tmed umid =
        outerMergeOn (outerMergeOn (outerMergeOn prec tmax none none) tmed
          (none, none) none) umid ((none, none), none) none from rfl,
      merge_left_solo _ umid ((none, none), none) none k ((v, none), none)
        (merge_left_solo _ tmed (none, none) none k (v, none)
          (merge_left_solo prec tmax none none k v h1 h2) h3) h4]
    rfl
  · rw [show mergeClimatico prec tmax tmed umid =
        outerMergeOn (outerMergeOn (outerMergeOn prec tmax none none) tmed
          (none, none) none) umid ((none, none), none) none from rfl,
      merge_left_solo _ umid ((none, none), none) none k ((none, v), none)
        (merge_left_solo _ tmed (none, none) none k (none, v)
          (merge_right_solo prec tmax none none k v h1 h2) h3) h4]
    rfl
  · rw [show mergeClimatico prec tmax tmed umid =
        outerMergeOn (outerMergeOn (outerMergeOn prec tmax none none) tmed
          (none, none) none) umid ((none, none), none) none from rfl,
      merge_left_solo _ umid ((none, none), none) none k ((none, none), v)
        (merge_right_solo _ tmed (none, none) none k v
          (merge_none_solo prec tmax none none k h1 h2) h3) h4]
    rfl
  · rw [show mergeClimatico prec tmax tmed umid =
        outerMergeOn (outerMergeOn (outerMergeOn prec tmax none none) tmed
          (none, none) none) umid ((none, none), none) none from rfl,
      merge_right_solo _ umid ((none, none), none) none k v
        (merge_none_solo _ tmed (none, none) none k
          (merge_none_solo prec tmax none none k h1 h2) h3) h4]
    rfl

/-- C8, witness: a `(plot, month-year)` pair present only in the humidity
table appears exactly once in the merged table, with nulls for
precipitation and the two temperatures. -/
theorem juncao_outer_completa_witness :
    (mergeClimatico (κ := String × String) [] [] []
        [(("P1", "jun_2021"), some 7)]).filter
      (fun x => decide (x.1 = ("P1", "jun_2021"))) =
      [(("P1", "jun_2021"), ((none, none), none), some 7)] := by
  have h := juncao_outer_completa (κ := String × String) 3 [] [] []
    [(("P1", "jun_2021"), some 7)] ("P1", "jun_2021") (some 7) rfl
  simpa [soloExpected] using h

/-- C9, counterexample: on an input whose plot ids are integers the
output rows carry the same integer ids — the output identifier is whatever
type the input id column had (the dashboard later applies `astype(str)`), not
a string. -/
theorem saida_tipos_contraexemplo :
    calcular_scores_mensais dfInteiro vtFalse wOnes (fun n => toString n) =
      [⟨(1 : ℤ), "jan", some (200 / 11)⟩] ∧
    (calcular_scores_mensais dfInteiro vtFalse wOnes (fun n => toString n)).map
      (fun r => r.talhao) = [(1 : ℤ)] := by
  have h1 : mesSimplificado "jan_2021" = some "jan" := by decide
  have hag : agrupar dfInteiro = [⟨1, "jan", some 1, some 1, some 1, some 1⟩] := by
    norm_num [agrupar, mkAgRow, groupKeys, grupo, dfInteiro, meanOpt, h1,
      List.filterMap_cons, List.dedup_cons_of_mem, List.dedup_cons_of_not_mem]
  have hsb : sBruto (α := ℤ) [⟨1, "jan", some 1, some 1, some 1, some 1⟩] wOnes vtFalse
      (fun n => toString n) = [some 2] := by
    norm_num [sBruto, sBrutoRow, normalizar_escala, boolFeature, wOnes, vtFalse,
      List.filterMap_cons]
  have hrs : rescale wOnes [some 2] = [some (200 / 11)] := by
    norm_num [rescale, wOnes, Pesos.lista]
  have hcalc : calcular_scores_mensais dfInteiro vtFalse wOnes (fun n => toString n) =
      [⟨(1 : ℤ), "jan", some (200 / 11)⟩] := by
    simp only [calcular_scores_mensais, hag, hsb, hrs]
    norm_num [clip100, List.insertionSort, List.orderedInsert]
  exact ⟨hcalc, by rw [hcalc]; rfl⟩

/-- C9, amended: the output of the engine is sorted ascending by
`(plot id, month abbreviation)`, the month field is the string month key, and
the plot id of each output row is one of the plot ids of the input, of the own
id type (the identifier is a string only when the input ids are). -/
theorem saida_ordenada {α : Type} [LinearOrder α] [DecidableEq α]
    (df : List (ClimRow α)) (vt : String → String → Bool) (w : Pesos)
    (pyStr : α → String) :
    List.Sorted rowLe (calcular_scores_mensais df vt w pyStr) ∧
    ∀ r ∈ calcular_scores_mensais df vt w pyStr,
      ∃ x ∈ df, r.talhao = x.talhao ∧ mesSimplificado x.mes = some r.mes := by
  constructor
  · simp only [calcular_scores_mensais]
    exact List.sorted_insertionSort rowLe _
  · intro r hr
    simp only [calcular_scores_mensais] at hr
    rw [(List.perm_insertionSort rowLe _).mem_iff] at hr
    obtain ⟨p, hp, rfl⟩ := List.mem_map.mp hr
    have h1 := (List.of_mem_zip hp).1
    unfold agrupar at h1
    obtain ⟨k, hk, hmk⟩ := List.mem_map.mp h1
    unfold groupKeys at hk
    obtain ⟨x, hx, hfx⟩ := List.mem_filterMap.mp (List.mem_dedup.mp hk)
    cases hms : mesSimplificado x.mes with
    | none => rw [hms] at hfx; cases hfx
    | some m =>
      rw [hms] at hfx
      simp only [Option.map_some', Option.some.injEq] at hfx
      refine ⟨x, hx, ?_, ?_⟩
      · show p.1.talhao = x.talhao
        rw [← hmk, ← hfx]
        rfl
      · show mesSimplificado x.mes = some p.1.mes
        rw [hms, ← hmk, ← hfx]
        rfl

/-- C9, witness: the provenance part applied to the single output row of the
one-row fixture. -/
theorem saida_ordenada_witness :
    ∃ x ∈ dfUmaLinha, ("1" : String) = x.talhao ∧
      mesSimplificado x.mes = some "jan" := by
  have h := (saida_ordenada dfUmaLinha vtFalse wOnes id).2
    ⟨"1", "jan", some (200 / 11)⟩ (by rw [calculo_uma_linha_eval]; simp)
  simpa using h

end Reme
